import Mathlib

/-!
Verification development for the marlin serverless-gateway enclave.

The definitions below are shallow embeddings of the Rust sources:
  * `src/constant.rs`                     — numeric constants;
  * `src/common_chain_interaction.rs`     — gateway election
    (`select_gateway_for_job_id`), the relay slash timer
    (`job_relayed_slash_timer`), the job placement handler and the
    active-jobs map;
  * `src/job_subscription_management.rs`  — subscription admission and the
    trigger scheduler;
  * `src/chain_util.rs`                   — `get_block_number_by_timestamp`
    and the EIP-712 style signers.

Machine integers are modelled as `Nat` with explicit wrap / overflow
handling where it matters: `u64` wrapping subtraction is `wsub64`, and the
panicking conversion `U256::as_u64` is `as_u64 : Nat → Option Nat`
(`none` models the panic).  Rust panics are propagated as `none` /
dedicated `panicked` constructors.  External library functions that are
deterministic black boxes for the program (the ChaCha-based `StdRng`
sample stream, `keccak256`, ECDSA signing) are taken as explicit function
parameters: the code only relies on their determinism, never on their
internals.
-/

namespace ServerlessGateway

/-! ## Constants (src/constant.rs) -/

/-- `REQUEST_RELAY_TIMEOUT: u64 = 15 * 60` seconds. -/
def REQUEST_RELAY_TIMEOUT : Nat := 15 * 60

/-- `MAX_GATEWAY_RETRIES: u8 = 2`. -/
def MAX_GATEWAY_RETRIES : Nat := 2

/-- `GATEWAY_BLOCK_STATES_TO_MAINTAIN: u64 = 5`. -/
def GATEWAY_BLOCK_STATES_TO_MAINTAIN : Nat := 5

/-- `OFFEST_FOR_GATEWAY_EPOCH_STATE_CYCLE: u64 = 4` (sic, the source's
spelling). -/
def OFFEST_FOR_GATEWAY_EPOCH_STATE_CYCLE : Nat := 4

/-- `MIN_GATEWAY_STAKE: U256 = 111111111111111110000` (a 256-bit constant;
note that it exceeds `u64::MAX = 18446744073709551615`). -/
def MIN_GATEWAY_STAKE : Nat := 111111111111111110000

/-! ## Machine-integer helpers -/

/-- Wrapping `u64` subtraction `a - b` (release-mode Rust semantics). -/
def wsub64 (a b : Nat) : Nat := (a + (2 ^ 64 - b % 2 ^ 64)) % 2 ^ 64

/-- `ethers::types::U256::as_u64`, which panics when the value does not fit
in 64 bits; the panic is modelled as `none`. -/
def as_u64 (n : Nat) : Option Nat := if n < 2 ^ 64 then some n else none

/-! ## Gateway data and the elector
    (src/common_chain_interaction.rs, `select_gateway_for_job_id`) -/

/-- `GatewayData` as stored in a gateway-epoch-state snapshot: address,
256-bit stake, supported request-chain ids and the draining flag
(`last_block_number` is irrelevant to the elector and omitted).
Addresses are modelled as `Nat` (H160 values). -/
structure GatewayData where
  address : Nat
  stake_amount : Nat
  req_chain_ids : List Nat
  draining : Bool
deriving DecidableEq, Repr

/-- One iteration of the elector's filter loop (lines 585-596 of
`common_chain_interaction.rs`).  The accumulator carries the retained
gateways `sel`, the cumulative stake array `dist` and the running `u64`
total; `none` records a panic.  Mirroring the source's short-circuit
`&&`, `as_u64` is evaluated (and can panic) as soon as the gateway
supports the request chain; the running total is a `u64`, whose overflow
(debug-mode panic) is also modelled as `none`. -/
def gateway_filter_step (chain_id : Nat)
    (acc : Option (List GatewayData × List Nat × Nat)) (g : GatewayData) :
    Option (List GatewayData × List Nat × Nat) :=
  match acc with
  | none => none
  | some (sel, dist, total) =>
    if g.req_chain_ids.contains chain_id then
      match as_u64 g.stake_amount with
      | none => none
      | some s64 =>
        if MIN_GATEWAY_STAKE < s64 ∧ g.draining = false then
          let total' := total + s64
          if total' < 2 ^ 64 then some (sel ++ [g], dist ++ [total'], total')
          else none
        else some (sel, dist, total)
    else some (sel, dist, total)

/-- The elector's filter over the whole snapshot (iteration order is the
snapshot's address order, here the list order). -/
def filter_gateways (chain_id : Nat) (gws : List GatewayData) :
    Option (List GatewayData × List Nat × Nat) :=
  gws.foldl (gateway_filter_step chain_id) (some ([], [], 0))

/-- Rust's `slice::binary_search_by` specialised to
`|&probe| probe.cmp(&random_number)`: the core-library loop over
half-open `[left, right)`, returning `Sum.inl mid` for `Ok(mid)` (exact
hit) and `Sum.inr left` for `Err(left)` (insertion point). -/
def binary_search_by_loop (d : List Nat) (v left right : Nat) : Nat ⊕ Nat :=
  if h : left < right then
    let mid := left + (right - left) / 2
    let probe := d.getD mid 0
    if probe < v then binary_search_by_loop d v (mid + 1) right
    else if v < probe then binary_search_by_loop d v left mid
    else Sum.inl mid
  else Sum.inr left
termination_by right - left
decreasing_by
  · omega
  · have : (right - left) / 2 < right - left := Nat.div_lt_self (by omega) (by omega)
    omega

/-- `stake_distribution.binary_search_by(...)` on the whole array. -/
def binary_search_by (d : List Nat) (v : Nat) : Nat ⊕ Nat :=
  binary_search_by_loop d v 0 d.length

/-- Lines 610-613: both `Ok(index)` and `Err(index)` are used as the
selection index. -/
def select_result_index : Nat ⊕ Nat → Nat
  | Sum.inl i => i
  | Sum.inr i => i

/-- Outcome of one call to `select_gateway_for_job_id`.  `waitlisted` is
the `Ok(Address::zero())` return after pushing the job on the epoch-state
waitlist; the two error constructors carry the source's two distinct
`anyhow` error messages; `panicked` records any Rust panic inside the
call (a failed `as_u64`, `gen_range` on an empty range, `u64` overflow,
or an out-of-bounds index). -/
inductive SelectResult where
  | err_job_too_old
  | waitlisted
  | err_no_gateways_registered
  | panicked
  | selected (address : Nat)
deriving DecidableEq, Repr

/-- Cycle index of a `u64` unix timestamp `t`:
`(t - epoch - OFFEST_FOR_GATEWAY_EPOCH_STATE_CYCLE) / time_interval` with
wrapping `u64` subtraction. -/
def cycle_of (epoch time_interval t : Nat) : Nat :=
  wsub64 (wsub64 t epoch) OFFEST_FOR_GATEWAY_EPOCH_STATE_CYCLE / time_interval

/-- Selection stage of the elector (lines 598-621): draw the sample,
binary-search the cumulative stake array and index the filtered list.
`rand`'s `gen_range(1..=total_stake)` panics on the empty range
`total_stake = 0`; the sample value itself (`random_number`) is an
argument, since the `StdRng` draw is a deterministic function of the
seed.  Indexing `gateway_data_of_req_chain[index]` out of bounds is the
final possible panic. -/
def pick_gateway (sel : List GatewayData) (dist : List Nat) (total : Nat)
    (random_number : Nat) : SelectResult :=
  if total = 0 then SelectResult.panicked
  else
    let index := select_result_index (binary_search_by dist random_number)
    match sel.get? index with
    | none => SelectResult.panicked
    | some g => SelectResult.selected g.address

/-- Shallow embedding of `select_gateway_for_job_id`.

* `epoch_state` is the `BTreeMap<u64, BTreeMap<Address, GatewayData>>`
  read under the lock: cycle ↦ the snapshot's gateways in ascending
  address order (the `BTreeMap` iteration order), or `none` when no
  snapshot exists for that cycle (the job is then waitlisted).
* `now` is the wall-clock `SystemTime::now()` unix time.
* `rng_draw i` is the `i`-th sample drawn from
  `StdRng::seed_from_u64(seed)` via `gen_range(1..=total_stake)`; the
  code discards draws `0 .. skips-2` and uses draw `skips - 1`.  The
  stream is a deterministic function of the seed, which is how the claim
  about determinism consumes it. -/
def select_gateway_for_job_id
    (epoch_state : Nat → Option (List GatewayData))
    (epoch time_interval : Nat)
    (job_starttime now : Nat)
    (skips : Nat) (chain_id : Nat)
    (rng_draw : Nat → Nat) : SelectResult :=
  let job_cycle := cycle_of epoch time_interval job_starttime
  let current_cycle := cycle_of epoch time_interval now
  if GATEWAY_BLOCK_STATES_TO_MAINTAIN + job_cycle ≤ current_cycle then
    SelectResult.err_job_too_old
  else
    match epoch_state job_cycle with
    | none => SelectResult.waitlisted
    | some all_gateways_data =>
      if all_gateways_data.isEmpty then SelectResult.err_no_gateways_registered
      else
        match filter_gateways chain_id all_gateways_data with
        | none => SelectResult.panicked
        | some (sel, dist, total) =>
          pick_gateway sel dist total (rng_draw (skips - 1))

/-- Spec-side statement of the elector's filter predicate for one gateway,
written from the claim's words (C4): the gateway supports the request
chain, its full 256-bit stake exceeds `MIN_GATEWAY_STAKE` with the
comparison done in 256-bit unsigned arithmetic, and it is not draining.
Used only to exhibit the divergence from the source's `u64`-truncating
filter. -/
def stake_filter_retains_spec (chain_id : Nat) (g : GatewayData) : Bool :=
  g.req_chain_ids.contains chain_id && decide (MIN_GATEWAY_STAKE < g.stake_amount)
    && !g.draining

/-- C2: election determinism.  Two runs of `select_gateway_for_job_id`
with identical epoch-state contents (the `BTreeMap` snapshot, ordered by
gateway address, is the same cycle-indexed list-valued map), identical
seed (hence the identical `StdRng` draw stream `rng_draw`), identical
`skips = k ≥ 1` and request chain id, evaluated at wall-clock times `t1`
and `t2` lying in the same current cycle, return the identical
`SelectResult` — the same elected address, the same error, or the same
zero-address (waitlist) deferral. -/
theorem select_gateway_for_job_id_deterministic
    (epoch_state : Nat → Option (List GatewayData))
    (epoch time_interval job_starttime chain_id : Nat)
    (k : Nat) (_hk : 1 ≤ k)
    (rng_draw : Nat → Nat) (t1 t2 : Nat)
    (hcyc : cycle_of epoch time_interval t1 = cycle_of epoch time_interval t2) :
    select_gateway_for_job_id epoch_state epoch time_interval job_starttime t1
        k chain_id rng_draw
      = select_gateway_for_job_id epoch_state epoch time_interval job_starttime t2
        k chain_id rng_draw := by
  unfold select_gateway_for_job_id
  rw [hcyc]

/-- Witness for C2 at concrete inputs: times 100 and 101 lie in the same
cycle for `epoch = 0`, `time_interval = 50`, and the two runs agree. -/
theorem select_gateway_for_job_id_deterministic_witness :
    1 ≤ (1 : Nat) ∧
    select_gateway_for_job_id
        (fun c => if c = 1 then some [⟨77, 100, [1], false⟩] else none)
        0 50 60 100 1 1 (fun _ => 1)
      = select_gateway_for_job_id
        (fun c => if c = 1 then some [⟨77, 100, [1], false⟩] else none)
        0 50 60 101 1 1 (fun _ => 1) :=
  ⟨by decide,
   select_gateway_for_job_id_deterministic
     (fun c => if c = 1 then some [⟨77, 100, [1], false⟩] else none)
     0 50 60 1 1 (by decide) (fun _ => 1) 100 101 (by decide)⟩

/-- C3 (code evaluation): when the snapshot for the job's cycle exists
and is non-empty but the filtered candidate set is empty — here a single
gateway that does not support the job's request chain — the source does
not return any error: `total_stake` is `0` and
`rng.gen_range(1..=total_stake)` panics on the empty range.  (The only
error return in this region, `"No Gateways Registered"`, fires solely
when the snapshot itself is empty; no `NoEligibleGateways` error exists
in the source.)  Concretely: `epoch = 6`, `time_interval = 10`, job
start time `100` (cycle 9), evaluated at `now = 100`, snapshot at cycle
9 holding one non-draining gateway with stake `200` supporting only
chain `2`, while the job's chain is `1`. -/
theorem select_gateway_empty_filter_panics :
    select_gateway_for_job_id
        (fun c => if c = 9 then some [⟨77, 200, [2], false⟩] else none)
        6 10 100 100 1 1 (fun _ => 1)
      = SelectResult.panicked ∧
    filter_gateways 1 [⟨77, 200, [2], false⟩] = some ([], [], 0) := by
  constructor <;> decide

/-- C4 (code evaluation): the stake filter truncates to `u64`.
With `MIN_GATEWAY_STAKE = 111111111111111110000 > u64::MAX`:
* a gateway whose 256-bit stake `MIN_GATEWAY_STAKE + 1` passes the
  claim's 256-bit filter (`stake_filter_retains_spec`), but the source
  panics in `stake_amount.as_u64()` because the stake exceeds
  `u64::MAX`;
* a gateway with stake `100` (the value the repository's own tests give
  every gateway) is rejected by the truncating comparison, leaving the
  filtered set empty, so the subsequent `gen_range(1..=0)` panics —
  the prefix sums are never accumulated from full 256-bit values. -/
theorem stake_filter_truncation_diverges :
    stake_filter_retains_spec 1 ⟨77, 111111111111111110001, [1], false⟩ = true ∧
    filter_gateways 1 [⟨77, 111111111111111110001, [1], false⟩] = none ∧
    select_gateway_for_job_id
        (fun c => if c = 9 then some [⟨77, 111111111111111110001, [1], false⟩] else none)
        6 10 100 100 1 1 (fun _ => 1)
      = SelectResult.panicked ∧
    filter_gateways 1 [⟨77, 100, [1], false⟩] = some ([], [], 0) ∧
    select_gateway_for_job_id
        (fun c => if c = 9 then some [⟨77, 100, [1], false⟩] else none)
        6 10 100 100 1 1 (fun _ => 1)
      = SelectResult.panicked := by
  refine ⟨by decide, by decide, by decide, by decide, by decide⟩

/-! ## Cumulative stake prefix sums and binary-search correctness (C5) -/

/-- Cumulative prefix sums starting from a running total `t`, mirroring
the elector's accumulation `total_stake += s; stake_distribution.push(total_stake)`. -/
def cum_sums_from (t : Nat) : List Nat → List Nat
  | [] => []
  | s :: rest => (t + s) :: cum_sums_from (t + s) rest

/-- The elector's `stake_distribution` array for a list of stakes. -/
def cum_sums (ss : List Nat) : List Nat := cum_sums_from 0 ss

theorem cum_sums_from_length (t : Nat) (ss : List Nat) :
    (cum_sums_from t ss).length = ss.length := by
  induction ss generalizing t with
  | nil => rfl
  | cons s rest ih => simp [cum_sums_from, ih]

theorem cum_sums_from_gt (t : Nat) (ss : List Nat) (hpos : ∀ s ∈ ss, 0 < s) :
    ∀ j, j < ss.length → t < (cum_sums_from t ss).getD j 0 := by
  induction ss generalizing t with
  | nil => intro j hj; simp at hj
  | cons s rest ih =>
    intro j hj
    match j with
    | 0 =>
      have : 0 < s := hpos s (by simp)
      simp [cum_sums_from]; omega
    | j + 1 =>
      have h := ih (t + s) (fun x hx => hpos x (by simp [hx])) j (by simpa using hj)
      have : 0 < s := hpos s (by simp)
      simp only [cum_sums_from, List.getD_cons_succ]
      omega

theorem cum_sums_from_strict (t : Nat) (ss : List Nat) (hpos : ∀ s ∈ ss, 0 < s) :
    ∀ i j, i < j → j < ss.length →
      (cum_sums_from t ss).getD i 0 < (cum_sums_from t ss).getD j 0 := by
  induction ss generalizing t with
  | nil => intro i j _ hj; simp at hj
  | cons s rest ih =>
    intro i j hij hj
    match i, j with
    | 0, j + 1 =>
      simp only [cum_sums_from, List.getD_cons_zero, List.getD_cons_succ]
      exact cum_sums_from_gt (t + s) rest (fun x hx => hpos x (by simp [hx])) j
        (by simpa using hj)
    | i + 1, j + 1 =>
      simp only [cum_sums_from, List.getD_cons_succ]
      exact ih (t + s) (fun x hx => hpos x (by simp [hx])) i j (by omega)
        (by simpa using hj)

theorem cum_sums_from_last (t : Nat) (ss : List Nat) (hne : ss ≠ []) :
    (cum_sums_from t ss).getD (ss.length - 1) 0 = t + ss.sum := by
  induction ss generalizing t with
  | nil => exact absurd rfl hne
  | cons s rest ih =>
    match rest with
    | [] => simp [cum_sums_from]
    | r :: rest' =>
      have h := ih (t + s) (by simp)
      simp only [cum_sums_from, List.length_cons, List.sum_cons,
        Nat.add_sub_cancel] at h ⊢
      rw [List.getD_cons_succ]
      omega

/-- Correctness of the embedded `slice::binary_search_by` loop on a
strictly increasing array: starting from a window `[left, right)` whose
outside already satisfies the search invariants, the returned index `i`
has every entry before it strictly below `v` and every entry from it on
at least `v`. -/
theorem binary_search_by_loop_spec (d : List Nat) (v : Nat)
    (hsorted : ∀ i j, i < j → j < d.length → d.getD i 0 < d.getD j 0) :
    ∀ n left right, right - left ≤ n → left ≤ right → right ≤ d.length →
      (∀ j, j < left → d.getD j 0 < v) →
      (∀ j, right ≤ j → j < d.length → v < d.getD j 0) →
      (select_result_index (binary_search_by_loop d v left right) ≤ d.length ∧
       (∀ j, j < select_result_index (binary_search_by_loop d v left right) →
         d.getD j 0 < v) ∧
       (∀ j, select_result_index (binary_search_by_loop d v left right) ≤ j →
         j < d.length → v ≤ d.getD j 0)) := by
  intro n
  induction n with
  | zero =>
    intro left right hn hlr hrd h1 h2
    have hnlt : ¬ left < right := by omega
    rw [binary_search_by_loop]
    simp only [hnlt, dite_false, select_result_index]
    refine ⟨by omega, h1, fun j hj hjd => le_of_lt (h2 j (by omega) hjd)⟩
  | succ n ih =>
    intro left right hn hlr hrd h1 h2
    rw [binary_search_by_loop]
    by_cases hlt : left < right
    · simp only [hlt, dite_true]
      have hhalf : (right - left) / 2 < right - left := Nat.div_lt_self (by omega) one_lt_two
      have hmid : left + (right - left) / 2 < right := by omega
      set mid := left + (right - left) / 2 with hmid_def
      by_cases hplt : d.getD mid 0 < v
      · simp only [hplt, if_true]
        exact ih (mid + 1) right (by omega) (by omega) hrd
          (fun j hj => by
            rcases Nat.lt_or_ge j mid with hcase | hcase
            · exact lt_trans (hsorted j mid hcase (by omega)) hplt
            · have : j = mid := by omega
              simpa [this] using hplt)
          h2
      · by_cases hvlt : v < d.getD mid 0
        · simp only [hplt, if_false, hvlt, if_true]
          exact ih left mid (by omega) (by omega) (by omega) h1
            (fun j hj hjd => by
              rcases Nat.lt_or_ge mid j with hcase | hcase
              · exact lt_trans hvlt (hsorted mid j hcase hjd)
              · have : j = mid := by omega
                simpa [this] using hvlt)
        · have heq : d.getD mid 0 = v := by omega
          simp only [hplt, if_false, hvlt, select_result_index]
          refine ⟨by omega,
            fun j hj => heq ▸ hsorted j mid hj (by omega),
            fun j hij hjd => ?_⟩
          rcases Nat.lt_or_ge mid j with hcase | hcase
          · exact le_of_lt (heq ▸ hsorted mid j hcase hjd)
          · have hjm : j = mid := by omega
            subst hjm
            omega
    · simp only [hlt, dite_false, select_result_index]
      refine ⟨by omega, h1, fun j hj hjd => le_of_lt (h2 j (by omega) hjd)⟩

/-- C5: on a non-empty filtered gateway list whose stakes are all
strictly positive (so the cumulative stake array `cum_sums` is strictly
increasing) and for every sample in `[1, total_stake]`, the election's
binary search — `Ok` and `Err` branches both used as the index — yields
the smallest index whose cumulative stake is `≥` the sample; that index
is unique and within bounds, and `pick_gateway` returns exactly the
gateway stored at that index. -/
theorem binary_search_selects_least_index
    (sel : List GatewayData) (sample : Nat)
    (hne : sel ≠ [])
    (hpos : ∀ g ∈ sel, 0 < g.stake_amount)
    (h1 : 1 ≤ sample)
    (hle : sample ≤ (sel.map GatewayData.stake_amount).sum) :
    (select_result_index
        (binary_search_by (cum_sums (sel.map GatewayData.stake_amount)) sample)
      < sel.length) ∧
    sample ≤ (cum_sums (sel.map GatewayData.stake_amount)).getD
      (select_result_index
        (binary_search_by (cum_sums (sel.map GatewayData.stake_amount)) sample)) 0 ∧
    (∀ j, j < select_result_index
        (binary_search_by (cum_sums (sel.map GatewayData.stake_amount)) sample) →
      (cum_sums (sel.map GatewayData.stake_amount)).getD j 0 < sample) ∧
    (∀ i', i' < (cum_sums (sel.map GatewayData.stake_amount)).length →
      sample ≤ (cum_sums (sel.map GatewayData.stake_amount)).getD i' 0 →
      (∀ j, j < i' → (cum_sums (sel.map GatewayData.stake_amount)).getD j 0 < sample) →
      i' = select_result_index
        (binary_search_by (cum_sums (sel.map GatewayData.stake_amount)) sample)) ∧
    (∃ g, sel.get? (select_result_index
        (binary_search_by (cum_sums (sel.map GatewayData.stake_amount)) sample))
        = some g ∧
      pick_gateway sel (cum_sums (sel.map GatewayData.stake_amount))
          ((sel.map GatewayData.stake_amount).sum) sample
        = SelectResult.selected g.address) := by
  set ss := sel.map GatewayData.stake_amount with hss
  have hsspos : ∀ s ∈ ss, 0 < s := by
    intro s hs
    rcases List.mem_map.mp hs with ⟨g, hg, rfl⟩
    exact hpos g hg
  have hssne : ss ≠ [] := by
    intro h
    exact hne (List.map_eq_nil_iff.mp (hss ▸ h))
  set d := cum_sums ss with hd
  have hdlen : d.length = sel.length := by
    simp [hd, cum_sums, cum_sums_from_length, hss]
  have hsorted : ∀ i j, i < j → j < d.length → d.getD i 0 < d.getD j 0 := by
    intro i j hij hj
    exact cum_sums_from_strict 0 ss hsspos i j hij
      (by simpa [hd, cum_sums, cum_sums_from_length] using hj)
  have hlast : d.getD (ss.length - 1) 0 = ss.sum := by
    simpa using cum_sums_from_last 0 ss hssne
  have hspec := binary_search_by_loop_spec d sample hsorted d.length 0 d.length
    (by omega) (by omega) (by omega) (by omega)
    (by intro j hj hjd; omega)
  set i := select_result_index (binary_search_by_loop d sample 0 d.length) with hi
  obtain ⟨hile, hbelow, habove⟩ := hspec
  have hsslen : 0 < ss.length := List.length_pos.mpr hssne
  have hdlen' : d.length = ss.length := by
    simp [hd, cum_sums, cum_sums_from_length]
  have hilt : i < d.length := by
    rcases Nat.lt_or_ge i d.length with h | h
    · exact h
    · exfalso
      have := hbelow (ss.length - 1) (by omega)
      omega
  have hbsb : binary_search_by d sample = binary_search_by_loop d sample 0 d.length := rfl
  refine ⟨by rw [hbsb]; omega, ?_, ?_, ?_, ?_⟩
  · rw [hbsb]
    exact habove i (le_refl i) hilt
  · rw [hbsb]
    exact hbelow
  · intro i' hi'lt hi'ge hi'min
    rw [hbsb]
    rcases Nat.lt_trichotomy i' i with h | h | h
    · exact absurd hi'ge (by have := hbelow i' h; omega)
    · exact h
    · exact absurd (habove i (le_refl i) hilt) (by have := hi'min i h; omega)
  · have hisel : i < sel.length := by omega
    have hsum : ¬ ss.sum = 0 := by omega
    have hg2 : sel[i]? = some sel[i] := List.getElem?_eq_getElem hisel
    have hidx : select_result_index (binary_search_by d sample) = i := rfl
    refine ⟨sel[i], ?_, ?_⟩
    · rw [hidx, List.get?_eq_getElem?]
      exact hg2
    · unfold pick_gateway
      rw [if_neg hsum, hidx]
      simp [List.get?_eq_getElem?, hg2]

/-- Witness for C5: three gateways with stakes `100, 200, 300`
(`cum_sums = [100, 300, 600]`) and sample `150` select index `1`. -/
theorem binary_search_selects_least_index_witness :
    ([⟨10, 100, [1], false⟩, ⟨11, 200, [1], false⟩,
      ⟨12, 300, [1], false⟩] : List GatewayData) ≠ [] ∧
    (select_result_index
        (binary_search_by (cum_sums (([⟨10, 100, [1], false⟩, ⟨11, 200, [1], false⟩,
          ⟨12, 300, [1], false⟩] : List GatewayData).map GatewayData.stake_amount)) 150)
      < ([⟨10, 100, [1], false⟩, ⟨11, 200, [1], false⟩,
          ⟨12, 300, [1], false⟩] : List GatewayData).length) :=
  ⟨by decide,
   (binary_search_selects_least_index
      [⟨10, 100, [1], false⟩, ⟨11, 200, [1], false⟩, ⟨12, 300, [1], false⟩]
      150 (by decide) (by decide) (by decide) (by decide)).1⟩

/-! ## The relay slash timer
    (src/common_chain_interaction.rs, `job_relayed_slash_timer`, C1/C6) -/

/-- ABI tokens as returned by ethers' `decode`.  Byte strings are lists of
byte values. -/
inductive Token where
  | uint (n : Nat)
  | address (a : Nat)
  | fixedBytes (bs : List Nat)
  | bytes (bs : List Nat)
deriving DecidableEq, Repr

/-- `ethabi::Token::into_address`: `Some` only on `Address` tokens — in
particular it is `None` on `Uint` tokens, so `.into_address().unwrap()`
on a decoded `uint256` field panics. -/
def Token.into_address : Token → Option Nat
  | Token.address a => some a
  | _ => none

/-- Event-signature topic of a common-chain log.  `keccak256` of distinct
signature strings yields distinct words; the only signature the slash
timer compares against is `JobRelayed(uint256,uint256,address,address)`,
so topics are modelled symbolically. -/
inductive EventTag where
  | job_relayed_common
  | other (n : Nat)
deriving DecidableEq, Repr

/-- A common-chain log as consumed by the slash timer: the signature
topic, the indexed `jobId` topic (`log.topics[1].into_uint()`), and the
data already ABI-decoded with `[Uint(256), Uint(256), Address, Address]`
— the token shape the repository's own test harness encodes
(`[jobId, execId, jobOwner, gateway]`). -/
structure CommonChainLog where
  topic0 : EventTag
  topic1 : Nat
  data : List Token
deriving DecidableEq, Repr

/-- A `Job` as carried through the coordinator (payload fields that the
slash timer and the active-jobs map never inspect — `tx_hash`,
`code_input` — are omitted). -/
structure Job where
  job_id : Nat
  request_chain_id : Nat
  user_timeout : Nat
  starttime : Nat
  job_owner : Nat
  sequence_number : Nat
  gateway_address : Option Nat
deriving DecidableEq, Repr

/-- The log scan of `job_relayed_slash_timer` (lines 480-510).
`some true` models the early `return` (relay treated as succeeded),
`some false` models falling through the loop (no qualifying log), and
`none` models a panic: indexing `decoded[1]` / `decoded[2]` out of
bounds, `into_address().unwrap()` on a non-address token — note that
`decoded[1]` is the event's second `uint256`, never an address — or
`job.gateway_address.unwrap()` on `None`.  The `&&` chain
short-circuits exactly as in the source. -/
def job_relayed_log_scan (job : Job) : List CommonChainLog → Option Bool
  | [] => some false
  | log :: rest =>
    if log.topic0 = EventTag.job_relayed_common then
      match log.data.get? 1 with
      | none => none
      | some t1 =>
        match t1.into_address with
        | none => none
        | some owner_field =>
          match log.data.get? 2 with
          | none => none
          | some t2 =>
            match t2.into_address with
            | none => none
            | some gateway_operator =>
              if log.topic1 = job.job_id ∧ owner_field = job.job_owner ∧
                  gateway_operator ≠ 0 then
                match job.gateway_address with
                | none => none
                | some ga =>
                  if gateway_operator ≠ ga then some true
                  else job_relayed_log_scan job rest
              else job_relayed_log_scan job rest
    else job_relayed_log_scan job rest

/-- Outcome of one expiry of the slash timer.  `slashed old new retried`:
a `Slash` job carrying the pre-increment sequence number `old` is sent to
the common-chain egress, the job's sequence number becomes `new = old + 1`,
and `retried` tells whether `job_placed_handler` is re-entered
(`new ≤ MAX_GATEWAY_RETRIES`). -/
inductive SlashTimerOutcome where
  | panicked
  | relay_confirmed
  | slashed (slash_seq new_seq : Nat) (retried : Bool)
deriving DecidableEq, Repr

/-- Shallow embedding of the decision taken by `job_relayed_slash_timer`
once the timer has expired and the `JobRelayed` logs have been fetched
(lines 480-533). -/
def job_relayed_slash_timer_outcome (job : Job) (logs : List CommonChainLog) :
    SlashTimerOutcome :=
  match job_relayed_log_scan job logs with
  | none => SlashTimerOutcome.panicked
  | some true => SlashTimerOutcome.relay_confirmed
  | some false =>
    let new_seq := job.sequence_number + 1
    SlashTimerOutcome.slashed job.sequence_number new_seq
      (decide (new_seq ≤ MAX_GATEWAY_RETRIES))

/-- Spec-side statement of C1's success condition, written from the
claim's words: some fetched log carries the `JobRelayed` signature, the
job's id and owner, and a gateway that is non-zero and not this
enclave's own address.  (Per the event layout the repository's test
harness encodes, the owner is the log's third field and the gateway its
fourth.)  Used only to exhibit the divergence from the source. -/
def relay_succeeded_claim (enclave_address : Nat) (job : Job)
    (logs : List CommonChainLog) : Bool :=
  logs.any fun log =>
    log.topic0 = EventTag.job_relayed_common &&
    log.topic1 = job.job_id &&
    log.data.getD 2 (Token.uint 0) = Token.address job.job_owner &&
    match log.data.getD 3 (Token.uint 0) with
    | Token.address g => decide (g ≠ 0) && decide (g ≠ enclave_address)
    | _ => false

/-- C1 (code evaluation): take the repository's own success scenario
(`test_job_relayed_slash_timer_txn_success`): a job with id 1, owner 7,
recorded elected gateway 5 (the enclave's address being 9), and a fetched
`JobRelayed` log `[uint 1, uint 100, address 7, address 5]` for job 1.
The claim (and the test) calls this a successful relay — non-zero,
non-self gateway.  The source instead panics: it reads the owner from
`decoded[1]`, a `uint256` token, and `into_address().unwrap()` on it
panics; the relay-succeeded early return is unreachable.  (Even with the
intended field indices the source's final conjunct
`gateway_operator != job.gateway_address.unwrap()` compares against the
recorded elected gateway — not the enclave's own address — and would
treat this successful relay as missing.) -/
theorem job_relayed_slash_timer_panics_on_matching_relay_log :
    job_relayed_slash_timer_outcome
        ⟨1, 1, 0, 0, 7, 1, some 5⟩
        [⟨EventTag.job_relayed_common, 1,
          [Token.uint 1, Token.uint 100, Token.address 7, Token.address 5]⟩]
      = SlashTimerOutcome.panicked ∧
    relay_succeeded_claim 9
        ⟨1, 1, 0, 0, 7, 1, some 5⟩
        [⟨EventTag.job_relayed_common, 1,
          [Token.uint 1, Token.uint 100, Token.address 7, Token.address 5]⟩]
      = true ∧
    SlashTimerOutcome.panicked ≠ SlashTimerOutcome.relay_confirmed := by
  refine ⟨by decide, by decide, by decide⟩

/-- Number of misses (= `Slash` submissions) a job experiences before the
retry loop of `job_relayed_slash_timer` drops it, when every armed timer
expires without a qualifying relay log: each miss submits one `Slash`,
increments the sequence number, and re-enters election only while the
incremented number is at most `MAX_GATEWAY_RETRIES` (lines 514-532). -/
def slash_misses_until_drop (seq : Nat) : Nat :=
  if MAX_GATEWAY_RETRIES < seq + 1 then 1
  else 1 + slash_misses_until_drop (seq + 1)
termination_by MAX_GATEWAY_RETRIES + 1 - seq
decreasing_by
  simp only [MAX_GATEWAY_RETRIES] at *
  omega

theorem slash_misses_until_drop_eval : slash_misses_until_drop 1 = 2 := by
  have h2 : slash_misses_until_drop 2 = 1 := by
    rw [slash_misses_until_drop]
    norm_num [MAX_GATEWAY_RETRIES]
  rw [slash_misses_until_drop]
  norm_num [MAX_GATEWAY_RETRIES, h2]

/-- C6 counterexample: a job starting at `sequence_number = 1` is dropped
on its second miss (`1 → 2` retried, `2 → 3 > MAX_GATEWAY_RETRIES`
dropped), i.e. it experiences exactly two misses in total — the claim's
"on the third miss the job is dropped" is false, since no third miss
ever occurs. -/
theorem slash_retry_drop_not_on_third_miss :
    slash_misses_until_drop 1 = 2 ∧ ¬ slash_misses_until_drop 1 = 3 := by
  have h := slash_misses_until_drop_eval
  omega

/-- C6 amended: whenever a slash timer expires with no qualifying relay
log, the enclave first sends a `Slash` job (carrying the pre-increment
sequence number) to the common-chain egress, then increments the job's
`sequence_number` by exactly one, and re-enters election if and only if
the incremented number is at most `MAX_GATEWAY_RETRIES = 2`; consequently
a job starting at `sequence_number = 1` increments twice (to 3) and is
dropped on the second miss — right after that miss's `Slash` is sent —
without further retries. -/
theorem slash_timer_retry_amended (job : Job) (logs : List CommonChainLog)
    (hmiss : job_relayed_log_scan job logs = some false) :
    job_relayed_slash_timer_outcome job logs
      = SlashTimerOutcome.slashed job.sequence_number (job.sequence_number + 1)
          (decide (job.sequence_number + 1 ≤ MAX_GATEWAY_RETRIES)) ∧
    slash_misses_until_drop 1 = 2 := by
  refine ⟨?_, slash_misses_until_drop_eval⟩
  simp [job_relayed_slash_timer_outcome, hmiss]

/-- Witness for C6's amended claim: a job at sequence number 1 with no
fetched logs is slashed and retried (`2 ≤ MAX_GATEWAY_RETRIES`). -/
theorem slash_timer_retry_amended_witness :
    job_relayed_log_scan ⟨1, 1, 0, 0, 7, 1, some 5⟩ [] = some false ∧
    job_relayed_slash_timer_outcome ⟨1, 1, 0, 0, 7, 1, some 5⟩ []
      = SlashTimerOutcome.slashed 1 2 true :=
  ⟨by decide,
   by
    have h := slash_timer_retry_amended ⟨1, 1, 0, 0, 7, 1, some 5⟩ [] (by decide)
    simpa using h.1⟩

/-! ## Subscription scheduler
    (src/job_subscription_management.rs, C7) -/

/-- A `SubscriptionJob` (payload fields `tx_hash` / `code_input` and the
`subscriber`, which the scheduler never inspects, are omitted). -/
structure SubscriptionJob where
  subscription_id : Nat
  request_chain_id : Nat
  interval : Nat
  termination_time : Nat
  user_timeout : Nat
  starttime : Nat
deriving DecidableEq, Repr

/-- `add_next_trigger_time_to_heap` for a present subscription on the
non-historic path (lines 311-347, 370-377): compute
`next = previous + interval`; if it exceeds `termination_time`, remove
the subscription from `subscription_jobs` (`none`); otherwise push
`next` onto the heap (`some next`). -/
def add_next_trigger_time_to_heap (sub : SubscriptionJob)
    (previous_trigger_time : Nat) : Option Nat :=
  let next_trigger_time := previous_trigger_time + sub.interval
  if sub.termination_time < next_trigger_time then none
  else some next_trigger_time

/-- Effect of `add_subscription_job` on a live (non-historic)
`SubscriptionStarted` event. -/
structure AdmissionResult where
  admitted : Bool
  first_instance_fired : Bool
  heap_entry : Option Nat
deriving DecidableEq, Repr

/-- `add_subscription_job` with `is_historic_log = false` (lines
260-308): reject when `termination_time < now`; otherwise insert into
`subscription_jobs` and seed the heap via `add_next_trigger_time_to_heap`
from `starttime`.  `to_trigger_first_instance` is `true` on this path,
but the spawned block `tokio::spawn(async move { trigger_subscription_job(..) })`
(lines 292-299) merely constructs the `trigger_subscription_job` future
and never awaits it — the async block returns the future as its value —
so the first instance is never executed: `first_instance_fired = false`. -/
def add_subscription_job_live (now : Nat) (sub : SubscriptionJob) :
    AdmissionResult :=
  if sub.termination_time < now then ⟨false, false, none⟩
  else ⟨true, false, add_next_trigger_time_to_heap sub sub.starttime⟩

/-- Trigger timestamps produced by the scheduler's tick loop
(`job_subscription_manager`, lines 161-212) for a single subscription:
pop the heap entry, fire it, and push `prev + interval` back while it
does not exceed `termination_time`.  `fuel` bounds the unrolling. -/
def trigger_times_loop (sub : SubscriptionJob) : Nat → Option Nat → List Nat
  | _, none => []
  | 0, some _ => []
  | fuel + 1, some t =>
    t :: trigger_times_loop sub fuel (add_next_trigger_time_to_heap sub t)

/-- All trigger timestamps the scheduler fires over the lifetime of a
subscription admitted live at wall-clock `now`. -/
def fired_trigger_times (now : Nat) (sub : SubscriptionJob) (fuel : Nat) :
    List Nat :=
  let adm := add_subscription_job_live now sub
  if adm.admitted then trigger_times_loop sub fuel adm.heap_entry else []

/-- Spec-side trigger set of claim C7, written from the claim's words:
`{start_time, start_time + interval, start_time + 2·interval, …}`
intersected with the values at most `termination_time` (listed for the
first `bound` multiples). -/
def claim_trigger_times (sub : SubscriptionJob) (bound : Nat) : List Nat :=
  ((List.range bound).map (fun k => sub.starttime + k * sub.interval)).filter
    (fun t => t ≤ sub.termination_time)

/-- C7 (code evaluation): the spec's own subscription S5 —
`id 42, start 1700000000, interval 60, termination 1700000180`, admitted
live at `now = 1700000000`.  The claim's trigger set is
`{t₀, t₀+60, t₀+120, t₀+180}`; the scheduler actually fires only
`{t₀+60, t₀+120, t₀+180}`: the first instance's trigger future is
constructed but never awaited, so `t₀` itself never fires. -/
theorem first_subscription_trigger_never_fires :
    fired_trigger_times 1700000000 ⟨42, 1, 60, 1700000180, 0, 1700000000⟩ 10
      = [1700000060, 1700000120, 1700000180] ∧
    claim_trigger_times ⟨42, 1, 60, 1700000180, 0, 1700000000⟩ 10
      = [1700000000, 1700000060, 1700000120, 1700000180] ∧
    (add_subscription_job_live 1700000000
        ⟨42, 1, 60, 1700000180, 0, 1700000000⟩).first_instance_fired = false ∧
    fired_trigger_times 1700000000 ⟨42, 1, 60, 1700000180, 0, 1700000000⟩ 10
      ≠ claim_trigger_times ⟨42, 1, 60, 1700000180, 0, 1700000000⟩ 10 := by
  refine ⟨by decide, by decide, by decide, by decide⟩

/-! ## Block-by-timestamp finder (src/chain_util.rs,
    `get_block_number_by_timestamp`, C8) -/

/-- Result of the `for _ in 0..5` head-fetch loop (lines 74-89): the
first successful `get_block_number` among the five attempts, or the
initial `0` when every attempt errors. -/
def head_block_number (attempts : List (Option Nat)) : Nat :=
  match (attempts.take 5).findSome? id with
  | some n => n
  | none => 0

/-- The main search loop of `get_block_number_by_timestamp` (lines
102-192), over a chain whose block `n` has timestamp `ts n`.

* The `f64` stride arithmetic only chooses the next probe, never the
  returned value, so it is abstracted into two oracle functions:
  `jump_forward bn nt` is line 135-137's
  `bn + ((target - nt) * block_rate_per_second) as u64`, and
  `back_adjust bn t` is the else-branch's rate-based adjustment of
  `block_number` (lines 170-189, identity when its guards fail).
* Transient RPC errors and not-yet-existing blocks only make the source
  retry the same probe, so blocks are modelled as always available.
* `earliest` is `earliest_block_number_after_target_ts` (initially
  `u64::MAX`); `fuel` bounds the unrolling, `none` meaning the loop was
  still running.

Returns `some none` for the source's `None` (the `while` guard
`block_number > 0` failed) and `some (some n)` for `Some(n)`. -/
def gbnbt_loop (ts : Nat → Nat) (target : Nat)
    (jump_forward back_adjust : Nat → Nat → Nat) :
    Nat → Nat → Nat → Option (Option Nat)
  | 0, _, _ => none
  | fuel + 1, block_number, earliest =>
    if block_number = 0 then some none
    else
      let t := ts block_number
      if t < target then
        let nt := ts (block_number + 1)
        if target ≤ nt then some (some block_number)
        else
          let bn := jump_forward block_number nt
          if earliest ≤ bn then
            gbnbt_loop ts target jump_forward back_adjust fuel
              (earliest - 1) (earliest - 1)
          else
            gbnbt_loop ts target jump_forward back_adjust fuel bn earliest
      else
        let earliest := min earliest block_number
        let bn := back_adjust block_number t
        gbnbt_loop ts target jump_forward back_adjust fuel (bn - 1) earliest

/-- `get_block_number_by_timestamp`: fetch the head (five attempts),
return `None` when that fails, else run the search loop from the head
with `earliest_block_number_after_target_ts = u64::MAX`. -/
def get_block_number_by_timestamp (attempts : List (Option Nat))
    (ts : Nat → Nat) (target : Nat)
    (jump_forward back_adjust : Nat → Nat → Nat) (fuel : Nat) :
    Option (Option Nat) :=
  let block_number := head_block_number attempts
  if block_number = 0 then some none
  else gbnbt_loop ts target jump_forward back_adjust fuel block_number
    (2 ^ 64 - 1)

theorem gbnbt_loop_some_spec (ts : Nat → Nat) (target : Nat)
    (jump_forward back_adjust : Nat → Nat → Nat) (n : Nat) :
    ∀ fuel block_number earliest,
      gbnbt_loop ts target jump_forward back_adjust fuel block_number earliest
        = some (some n) →
      ts n < target ∧ target ≤ ts (n + 1) := by
  intro fuel
  induction fuel with
  | zero => intro bn e h; simp [gbnbt_loop] at h
  | succ fuel ih =>
    intro bn e h
    rw [gbnbt_loop] at h
    by_cases hbn : bn = 0
    · simp [hbn] at h
    · simp only [hbn, if_false] at h
      by_cases ht : ts bn < target
      · simp only [ht, if_true] at h
        by_cases hnt : target ≤ ts (bn + 1)
        · simp only [hnt, if_true, Option.some.injEq] at h
          obtain rfl : bn = n := by omega
          exact ⟨ht, hnt⟩
        · simp only [hnt, if_false] at h
          by_cases he : e ≤ jump_forward bn (ts (bn + 1))
          · simp only [he, if_true] at h
            exact ih _ _ h
          · simp only [he, if_false] at h
            exact ih _ _ h
      · simp only [ht, if_false] at h
        exact ih _ _ h

/-- C8: whenever `get_block_number_by_timestamp` returns `Some(n)`,
block `n`'s timestamp is strictly below the target and block `n+1`'s
timestamp is at or above it — so on a chain with monotone timestamps `n`
is the largest block whose timestamp lies strictly below the target —
and it returns `None` when all five head-fetch attempts fail, as well as
when the search loop's `block_number` descends below block 1 (the
`while block_number > 0` guard fails). -/
theorem get_block_number_by_timestamp_spec (attempts : List (Option Nat))
    (ts : Nat → Nat) (target : Nat)
    (jump_forward back_adjust : Nat → Nat → Nat) (fuel n : Nat) :
    (get_block_number_by_timestamp attempts ts target jump_forward back_adjust
        fuel = some (some n) →
      ts n < target ∧ target ≤ ts (n + 1)) ∧
    ((∀ i j, i ≤ j → ts i ≤ ts j) →
      get_block_number_by_timestamp attempts ts target jump_forward back_adjust
        fuel = some (some n) →
      ∀ m, ts m < target → m ≤ n) ∧
    ((∀ a ∈ attempts.take 5, a = none) →
      get_block_number_by_timestamp attempts ts target jump_forward back_adjust
        fuel = some none) ∧
    (∀ earliest, gbnbt_loop ts target jump_forward back_adjust (fuel + 1) 0
        earliest = some none) := by
  have hsome : get_block_number_by_timestamp attempts ts target jump_forward
      back_adjust fuel = some (some n) →
      ts n < target ∧ target ≤ ts (n + 1) := by
    intro h
    unfold get_block_number_by_timestamp at h
    by_cases hh : head_block_number attempts = 0
    · simp [hh] at h
    · simp only [hh, if_false] at h
      exact gbnbt_loop_some_spec ts target jump_forward back_adjust n _ _ _ h
  refine ⟨hsome, ?_, ?_, ?_⟩
  · intro hmono h m hm
    obtain ⟨h1, h2⟩ := hsome h
    by_contra hgt
    have hmn : n + 1 ≤ m := by omega
    have := hmono (n + 1) m hmn
    omega
  · intro hnone
    unfold get_block_number_by_timestamp
    have : (attempts.take 5).findSome? id = none :=
      List.findSome?_eq_none_iff.mpr hnone
    simp [head_block_number, this]
  · intro earliest
    rw [gbnbt_loop]
    simp

/-- Witness for C8 on a concrete chain: `ts b = 10·b`, target `25`, head
read succeeding with block 3 on the first attempt; the search returns
block 2, whose timestamp `20` is below `25` while block 3's timestamp
`30` is not, and `2` is the largest such block. -/
theorem get_block_number_by_timestamp_spec_witness :
    get_block_number_by_timestamp [some 3] (fun b => 10 * b) 25
        (fun b _ => b) (fun b _ => b) 5 = some (some 2) ∧
    (10 * 2 < 25 ∧ 25 ≤ 10 * (2 + 1)) ∧
    (∀ m, 10 * m < 25 → m ≤ 2) :=
  ⟨by decide,
   (get_block_number_by_timestamp_spec [some 3] (fun b => 10 * b) 25
      (fun b _ => b) (fun b _ => b) 5 2).1 (by decide),
   (get_block_number_by_timestamp_spec [some 3] (fun b => 10 * b) 25
      (fun b _ => b) (fun b _ => b) 5 2).2.1
      (fun i j h => Nat.mul_le_mul_left 10 h) (by decide)⟩

/-! ## EIP-712-style response signing (src/chain_util.rs,
    `sign_job_response_request`, C9) -/

/-- `JobMode` of a job: a one-shot relay or a subscription instance. -/
inductive JobMode where
  | Once
  | Subscription
deriving DecidableEq, Repr

/-- Big-endian 32-byte ABI word of a 256-bit value. -/
def be_word32 (n : Nat) : List Nat :=
  (List.range 32).map (fun i => n / 256 ^ (31 - i) % 256)

/-- ABI head encoding of one token.  Every token handed to
`ethers::abi::encode` in the signers is a static 32-byte head type
(`FixedBytes(32)`, `Uint(256)` or `Address`), for which `encode` is the
plain concatenation of the 32-byte words. -/
def abi_word : Token → List Nat
  | Token.uint n => be_word32 n
  | Token.address a => be_word32 a
  | Token.fixedBytes bs => bs
  | Token.bytes bs => bs

/-- `ethers::abi::encode` on a list of static 32-byte tokens. -/
def abi_encode (tokens : List Token) : List Nat :=
  (tokens.map abi_word).flatten

/-- ASCII bytes of a string constant. -/
def str_bytes (s : String) : List Nat := s.toList.map Char.toNat

/-- The `JobResponse` type string hashed into the typehash (line 338). -/
def job_response_typehash_str : String :=
  "JobResponse(uint256 jobId,bytes output,uint256 totalTime,uint8 errorCode,uint256 signTimestamp)"

/-- The `EIP712Domain` type string (lines 234, 294, 362). -/
def eip712_domain_typehash_str : String :=
  "EIP712Domain(string name,string version)"

/-- Contract-name selection of `sign_job_response_request`
(lines 354-359): `marlin.oyster.Relay` exactly for one-shot jobs,
`marlin.oyster.RelaySubscriptions` otherwise. -/
def job_response_contract_name (job_mode : JobMode) : String :=
  if job_mode = JobMode.Once then "marlin.oyster.Relay"
  else "marlin.oyster.RelaySubscriptions"

/-- The domain separator
`keccak256(abi.encode(keccak256("EIP712Domain(string name,string version)"), keccak256(contractName), keccak256("1")))`.
`keccak` is the keccak-256 function, an external deterministic black box
passed as a parameter. -/
def domain_separator (keccak : List Nat → List Nat) (contract_name : String) :
    List Nat :=
  keccak (abi_encode
    [Token.fixedBytes (keccak (str_bytes eip712_domain_typehash_str)),
     Token.fixedBytes (keccak (str_bytes contract_name)),
     Token.fixedBytes (keccak (str_bytes "1"))])

/-- Shallow embedding of `sign_job_response_request` (lines 324-390).
`sign d = (r, s, recovery_id)` models
`signer_key.sign_prehash_recoverable(&d)`: the 32-byte halves of the
ECDSA signature and the `RecoveryId`; the function returns
`r ‖ s ‖ [27 + recovery_id]` (the source appends `27 + v.to_byte()` to
`rs.to_bytes()`) together with the sign timestamp.  (The source then hex
encodes the 65 bytes; the hex step is length-doubling and injective, so
the byte string is the faithful object of study.) -/
def sign_job_response_request (keccak : List Nat → List Nat)
    (sign : List Nat → List Nat × List Nat × Nat)
    (job_id : Nat) (output : List Nat) (total_time error_code : Nat)
    (job_mode : JobMode) (sign_timestamp : Nat) : List Nat × Nat :=
  let job_response_typehash := keccak (str_bytes job_response_typehash_str)
  let output_hash := keccak output
  let hash_struct := keccak (abi_encode
    [Token.fixedBytes job_response_typehash,
     Token.uint job_id,
     Token.fixedBytes output_hash,
     Token.uint total_time,
     Token.uint error_code,
     Token.uint sign_timestamp])
  let gateway_jobs_domain_separator :=
    domain_separator keccak (job_response_contract_name job_mode)
  let digest := keccak
    (0x19 :: 0x01 :: (gateway_jobs_domain_separator ++ hash_struct))
  let sig := sign digest
  (sig.1 ++ sig.2.1 ++ [27 + sig.2.2], sign_timestamp)

/-- Spec-side digest of claim C9, written from the claim's words:
`keccak256(0x19 ‖ 0x01 ‖ domainSeparator ‖ structHash)` where
`structHash` hashes the `JobResponse` typehash together with `jobId`,
the keccak pre-hash of the output bytes, `totalTime`, `errorCode` and
`signTimestamp`, and the domain separator's contract name is
`marlin.oyster.Relay` exactly when the mode is `Once` and
`marlin.oyster.RelaySubscriptions` otherwise. -/
def claim_job_response_digest (keccak : List Nat → List Nat)
    (job_id : Nat) (output : List Nat) (total_time error_code : Nat)
    (job_mode : JobMode) (sign_timestamp : Nat) : List Nat :=
  let struct_hash := keccak
    (keccak (str_bytes job_response_typehash_str) ++ be_word32 job_id ++
     keccak output ++ be_word32 total_time ++ be_word32 error_code ++
     be_word32 sign_timestamp)
  let name := if job_mode = JobMode.Once then "marlin.oyster.Relay"
    else "marlin.oyster.RelaySubscriptions"
  let dsep := keccak
    (keccak (str_bytes eip712_domain_typehash_str) ++ keccak (str_bytes name) ++
     keccak (str_bytes "1"))
  keccak (0x19 :: 0x01 :: (dsep ++ struct_hash))

/-- C9: `sign_job_response_request` signs exactly the claim's digest —
`keccak256(0x19 ‖ 0x01 ‖ domainSeparator ‖ structHash)` with the
contract name selected by the job mode — and returns the 65-byte
`r ‖ s ‖ v` signature with `v = 27 + recovery_id ∈ {27, 28}`, together
with the signing timestamp. -/
theorem sign_job_response_request_digest_spec
    (keccak : List Nat → List Nat) (sign : List Nat → List Nat × List Nat × Nat)
    (job_id : Nat) (output : List Nat) (total_time error_code : Nat)
    (job_mode : JobMode) (sign_timestamp : Nat)
    (hr : (sign (claim_job_response_digest keccak job_id output total_time
      error_code job_mode sign_timestamp)).1.length = 32)
    (hs : (sign (claim_job_response_digest keccak job_id output total_time
      error_code job_mode sign_timestamp)).2.1.length = 32)
    (hv : (sign (claim_job_response_digest keccak job_id output total_time
      error_code job_mode sign_timestamp)).2.2 < 2) :
    (sign_job_response_request keccak sign job_id output total_time error_code
        job_mode sign_timestamp).1
      = (sign (claim_job_response_digest keccak job_id output total_time
          error_code job_mode sign_timestamp)).1 ++
        (sign (claim_job_response_digest keccak job_id output total_time
          error_code job_mode sign_timestamp)).2.1 ++
        [27 + (sign (claim_job_response_digest keccak job_id output total_time
          error_code job_mode sign_timestamp)).2.2] ∧
    (sign_job_response_request keccak sign job_id output total_time error_code
        job_mode sign_timestamp).1.length = 65 ∧
    (27 + (sign (claim_job_response_digest keccak job_id output total_time
        error_code job_mode sign_timestamp)).2.2 = 27 ∨
     27 + (sign (claim_job_response_digest keccak job_id output total_time
        error_code job_mode sign_timestamp)).2.2 = 28) ∧
    (sign_job_response_request keccak sign job_id output total_time error_code
        job_mode sign_timestamp).2 = sign_timestamp := by
  have hdig : claim_job_response_digest keccak job_id output total_time
      error_code job_mode sign_timestamp
      = keccak (0x19 :: 0x01 ::
          (domain_separator keccak (job_response_contract_name job_mode) ++
           keccak (abi_encode
             [Token.fixedBytes (keccak (str_bytes job_response_typehash_str)),
              Token.uint job_id,
              Token.fixedBytes (keccak output),
              Token.uint total_time,
              Token.uint error_code,
              Token.uint sign_timestamp]))) := by
    cases job_mode <;>
      simp [claim_job_response_digest, domain_separator, abi_encode, abi_word,
        job_response_contract_name, List.append_assoc]
  have hmain : (sign_job_response_request keccak sign job_id output total_time
      error_code job_mode sign_timestamp).1
      = (sign (claim_job_response_digest keccak job_id output total_time
          error_code job_mode sign_timestamp)).1 ++
        (sign (claim_job_response_digest keccak job_id output total_time
          error_code job_mode sign_timestamp)).2.1 ++
        [27 + (sign (claim_job_response_digest keccak job_id output total_time
          error_code job_mode sign_timestamp)).2.2] := by
    rw [hdig]
    rfl
  refine ⟨hmain, ?_, by omega, rfl⟩
  rw [hmain]
  simp [hr, hs]

/-- Witness for C9 with a toy hash and signer: `keccak` returns 32 copies
of the input length mod 256, `sign` returns fixed 32-byte halves and
recovery id 1; the resulting signature is 65 bytes ending in `28`. -/
theorem sign_job_response_request_digest_spec_witness :
    (fun (_ : List Nat) => ((List.replicate 32 3, List.replicate 32 4, 1) :
        List Nat × List Nat × Nat)) (claim_job_response_digest
        (fun bs => List.replicate 32 (bs.length % 256)) 7 [1, 2] 5 0
        JobMode.Once 99) = (List.replicate 32 3, List.replicate 32 4, 1) ∧
    (sign_job_response_request (fun bs => List.replicate 32 (bs.length % 256))
        (fun _ => (List.replicate 32 3, List.replicate 32 4, 1))
        7 [1, 2] 5 0 JobMode.Once 99).1.length = 65 :=
  ⟨rfl,
   (sign_job_response_request_digest_spec
      (fun bs => List.replicate 32 (bs.length % 256))
      (fun _ => (List.replicate 32 3, List.replicate 32 4, 1))
      7 [1, 2] 5 0 JobMode.Once 99
      (by simp) (by simp) (by simp)).2.1⟩

/-! ## The active-jobs map
    (src/common_chain_interaction.rs, C10)

The `active_jobs: Arc<RwLock<HashMap<U256, Job>>>` starts empty
(`ContractsClient::new`, line 90) and is mutated only by:

* `job_placed_handler` (lines 429-451) — the sole insertion, in the
  branch where the elected gateway equals the enclave address, after
  setting `job.gateway_address = Some(gateway_address)`;
* `cancel_job_with_job_id` (line 629) — unconditional removal;
* `remove_job` (lines 898-908) — removal when the stored sequence number
  matches (reached from `job_responded_handler`);
* `job_resource_unavailable_handler` (lines 977-1004) — reads the stored
  job, `unwrap`s its `gateway_address`, and removes it when it equals the
  enclave address;
* `gateway_reassigned_handler` (lines 1006-1037) — removal when the
  decoded old gateway is the enclave and the sequence numbers match;
* `remove_response_job` (lines 1123-1126) — unconditional removal.

The map is modelled as an association list; `aj_apply` returns `none`
when the handler would panic (the only `unwrap` on a stored job's
`gateway_address` is in `job_resource_unavailable_handler`). -/

/-- Lookup in the active-jobs map. -/
def aj_lookup (st : List (Nat × Job)) (job_id : Nat) : Option Job :=
  (st.find? (fun p => p.1 == job_id)).map Prod.snd

/-- `HashMap::insert`: bind `job_id`, replacing any previous binding. -/
def aj_insert (st : List (Nat × Job)) (job_id : Nat) (job : Job) :
    List (Nat × Job) :=
  (job_id, job) :: st.filter (fun p => ¬ p.1 == job_id)

/-- `HashMap::remove`. -/
def aj_remove (st : List (Nat × Job)) (job_id : Nat) : List (Nat × Job) :=
  st.filter (fun p => ¬ p.1 == job_id)

/-- The operations of the common-chain event handlers that touch
`active_jobs`.  `placed job elected` is `job_placed_handler` after the
elector returned `Ok(elected)` (the `Err` branch leaves the map
untouched and is omitted as an identity). -/
inductive AJOp where
  | placed (job : Job) (elected : Nat)
  | cancel (job_id : Nat)
  | responded (job_id : Nat)
  | resource_unavailable (job_id : Nat)
  | reassigned (job_id : Nat) (old_gateway seq : Nat)
  | response_txn_done (job_id : Nat)

/-- `remove_job` (lines 898-908): remove only when the stored job's
sequence number equals the given job's. -/
def remove_job_step (st : List (Nat × Job)) (job : Job) : List (Nat × Job) :=
  match aj_lookup st job.job_id with
  | none => st
  | some stored =>
    if stored.sequence_number = job.sequence_number then aj_remove st job.job_id
    else st

/-- Effect of one handler invocation on the active-jobs map; `none`
models a panic. -/
def aj_apply (enclave_address : Nat) (st : List (Nat × Job)) :
    AJOp → Option (List (Nat × Job))
  | AJOp.placed job elected =>
    if elected = 0 then some st
    else if elected = enclave_address then
      some (aj_insert st job.job_id { job with gateway_address := some elected })
    else some st
  | AJOp.cancel job_id => some (aj_remove st job_id)
  | AJOp.responded job_id =>
    match aj_lookup st job_id with
    | none => some st
    | some stored => some (remove_job_step st stored)
  | AJOp.resource_unavailable job_id =>
    match aj_lookup st job_id with
    | none => some st
    | some stored =>
      match stored.gateway_address with
      | none => none
      | some ga =>
        if ga ≠ enclave_address then some st
        else some (aj_remove st job_id)
  | AJOp.reassigned job_id old_gateway seq =>
    match aj_lookup st job_id with
    | none => some st
    | some stored =>
      if old_gateway ≠ enclave_address then some st
      else if stored.sequence_number ≠ seq then some st
      else some (aj_remove st job_id)
  | AJOp.response_txn_done job_id => some (aj_remove st job_id)

/-- States of `active_jobs` reachable from the empty map through the
handlers. -/
inductive AJReachable (enclave_address : Nat) : List (Nat × Job) → Prop
  | init : AJReachable enclave_address []
  | step (st st' : List (Nat × Job)) (op : AJOp) :
      AJReachable enclave_address st →
      aj_apply enclave_address st op = some st' →
      AJReachable enclave_address st'

theorem aj_lookup_mem (st : List (Nat × Job)) (job_id : Nat) (j : Job)
    (h : aj_lookup st job_id = some j) : ∃ p ∈ st, p.2 = j := by
  simp only [aj_lookup, Option.map_eq_some'] at h
  obtain ⟨p, hp, rfl⟩ := h
  exact ⟨p, List.mem_of_find?_eq_some hp, rfl⟩

theorem remove_job_step_subset (st : List (Nat × Job)) (job : Job) :
    ∀ p ∈ remove_job_step st job, p ∈ st := by
  intro p hp
  unfold remove_job_step at hp
  cases h : aj_lookup st job.job_id with
  | none => simp only [h] at hp; exact hp
  | some stored =>
    simp only [h] at hp
    by_cases hseq : stored.sequence_number = job.sequence_number
    · rw [if_pos hseq] at hp
      simp only [aj_remove] at hp
      exact List.mem_of_mem_filter hp
    · rw [if_neg hseq] at hp
      exact hp

theorem aj_remove_subset (st : List (Nat × Job)) (job_id : Nat) :
    ∀ p ∈ aj_remove st job_id, p ∈ st := by
  intro p hp
  simp only [aj_remove] at hp
  exact List.mem_of_mem_filter hp

theorem aj_apply_preserves (enclave_address : Nat) (st : List (Nat × Job))
    (op : AJOp) (st' : List (Nat × Job))
    (hinv : ∀ p ∈ st, p.2.gateway_address = some enclave_address)
    (happ : aj_apply enclave_address st op = some st') :
    ∀ p ∈ st', p.2.gateway_address = some enclave_address := by
  cases op with
  | placed job elected =>
    simp only [aj_apply] at happ
    by_cases h0 : elected = 0
    · rw [if_pos h0] at happ
      injection happ with h
      exact h ▸ hinv
    · rw [if_neg h0] at happ
      by_cases hself : elected = enclave_address
      · rw [if_pos hself] at happ
        injection happ with h
        subst h
        intro p hp
        simp only [aj_insert, List.mem_cons] at hp
        rcases hp with rfl | hmem
        · simp [hself]
        · exact hinv p (List.mem_of_mem_filter hmem)
      · rw [if_neg hself] at happ
        injection happ with h
        exact h ▸ hinv
  | cancel job_id =>
    simp only [aj_apply] at happ
    injection happ with h
    subst h
    intro p hp
    exact hinv p (aj_remove_subset st job_id p hp)
  | responded job_id =>
    simp only [aj_apply] at happ
    cases hlook : aj_lookup st job_id with
    | none =>
      simp only [hlook] at happ
      injection happ with h
      exact h ▸ hinv
    | some stored =>
      simp only [hlook] at happ
      injection happ with h
      subst h
      intro p hp
      exact hinv p (remove_job_step_subset st stored p hp)
  | resource_unavailable job_id =>
    simp only [aj_apply] at happ
    cases hlook : aj_lookup st job_id with
    | none =>
      simp only [hlook] at happ
      injection happ with h
      exact h ▸ hinv
    | some stored =>
      simp only [hlook] at happ
      cases hga : stored.gateway_address with
      | none => simp [hga] at happ
      | some ga =>
        simp only [hga] at happ
        by_cases hne : ga ≠ enclave_address
        · rw [if_pos hne] at happ
          injection happ with h
          exact h ▸ hinv
        · rw [if_neg hne] at happ
          injection happ with h
          subst h
          intro p hp
          exact hinv p (aj_remove_subset st job_id p hp)
  | reassigned job_id old_gateway seq =>
    simp only [aj_apply] at happ
    cases hlook : aj_lookup st job_id with
    | none =>
      simp only [hlook] at happ
      injection happ with h
      exact h ▸ hinv
    | some stored =>
      simp only [hlook] at happ
      by_cases hog : old_gateway ≠ enclave_address
      · rw [if_pos hog] at happ
        injection happ with h
        exact h ▸ hinv
      · rw [if_neg hog] at happ
        by_cases hseq : stored.sequence_number ≠ seq
        · rw [if_pos hseq] at happ
          injection happ with h
          exact h ▸ hinv
        · rw [if_neg hseq] at happ
          injection happ with h
          subst h
          intro p hp
          exact hinv p (aj_remove_subset st job_id p hp)
  | response_txn_done job_id =>
    simp only [aj_apply] at happ
    injection happ with h
    subst h
    intro p hp
    exact hinv p (aj_remove_subset st job_id p hp)

/-- C10: in every reachable state of `active_jobs`, every stored job has
`gateway_address = Some(enclave_address)` — insertion happens only in
the self-elected branch of `job_placed_handler` with the field set just
before, and no handler mutates a stored job's `gateway_address` — and
consequently no handler invocation panics: in particular the
`gateway_address.unwrap()` that `job_resource_unavailable_handler`
performs on a job read from the map never fails. -/
theorem active_jobs_gateway_invariant (enclave_address : Nat)
    (st : List (Nat × Job)) (h : AJReachable enclave_address st) :
    (∀ p ∈ st, p.2.gateway_address = some enclave_address) ∧
    (∀ op, aj_apply enclave_address st op ≠ none) := by
  have hinv : ∀ p ∈ st, p.2.gateway_address = some enclave_address := by
    induction h with
    | init => intro p hp; simp at hp
    | step st st' op _hreach happ ih =>
      exact aj_apply_preserves enclave_address st op st' ih happ
  refine ⟨hinv, ?_⟩
  intro op
  cases op with
  | placed job elected =>
    simp only [aj_apply]
    split
    · simp
    · split <;> simp
  | cancel job_id => simp [aj_apply]
  | responded job_id =>
    simp only [aj_apply]
    cases hlook : aj_lookup st job_id <;> simp [hlook]
  | resource_unavailable job_id =>
    simp only [aj_apply]
    cases hlook : aj_lookup st job_id with
    | none => simp [hlook]
    | some stored =>
      obtain ⟨p, hp, rfl⟩ := aj_lookup_mem st job_id stored hlook
      simp only [hlook, hinv p hp]
      split <;> simp
  | reassigned job_id old_gateway seq =>
    simp only [aj_apply]
    cases hlook : aj_lookup st job_id with
    | none => simp [hlook]
    | some stored =>
      simp only [hlook]
      split
      · simp
      · split <;> simp
  | response_txn_done job_id => simp [aj_apply]

/-- Witness for C10: the state reached from the empty map by one
self-elected placement is reachable, and the job stored in it carries
the enclave's address. -/
theorem active_jobs_gateway_invariant_witness :
    AJReachable 9 [((1 : Nat), (⟨1, 1, 0, 0, 7, 1, some 9⟩ : Job))] ∧
    (⟨1, 1, 0, 0, 7, 1, some 9⟩ : Job).gateway_address = some 9 :=
  have hreach : AJReachable 9 [((1 : Nat), (⟨1, 1, 0, 0, 7, 1, some 9⟩ : Job))] :=
    AJReachable.step [] [(1, ⟨1, 1, 0, 0, 7, 1, some 9⟩)]
      (AJOp.placed ⟨1, 1, 0, 0, 7, 1, none⟩ 9) AJReachable.init (by decide)
  ⟨hreach,
   (active_jobs_gateway_invariant 9 [(1, ⟨1, 1, 0, 0, 7, 1, some 9⟩)] hreach).1
     (1, ⟨1, 1, 0, 0, 7, 1, some 9⟩) (by simp)⟩

end ServerlessGateway
